import Mathlib

/-!
# Verification of the GlobalEdu Wikipedia country-outline API

A shallow embedding of `src/main.py` (the single-file FastAPI service).
The service resolves a country name to a Wikipedia URL, fetches the page,
parses it, extracts the headings of the `mw-content-text` region and
renders them as a Markdown outline; fetch and extraction failures are
translated into HTTP error responses.

HTML parsing itself is the collaborator's job (BeautifulSoup with
`html.parser`), so the embedding takes an already-parsed element tree as
input and models the BeautifulSoup operations the code calls on it:
`find(id=...)`, `find_all([...])`, `get_text(strip=True)`, together with
the Python string operations `str.replace`, `str.strip` and the `in`
substring test.
-/

namespace GlobalEduApi

/-! ## Python string primitives -/

/-- Python `str.strip()`: remove leading and trailing whitespace. -/
def pyStrip (s : String) : String :=
  ⟨((s.data.dropWhile Char.isWhitespace).reverse.dropWhile Char.isWhitespace).reverse⟩

/-- Scanner for Python `str.replace(pat, rep)` with the non-empty pattern
`p :: ps` and replacement `rep`, over lists of characters.  The first
argument is a skip counter: after a match is consumed, the remaining
`ps.length` matched characters still sitting in the input are skipped
before scanning resumes.  Matching is left-to-right and non-overlapping,
and the produced text is never rescanned, exactly as in CPython. -/
def replGo (p : Char) (ps rep : List Char) : Nat → List Char → List Char
  | _, [] => []
  | skip + 1, _ :: rest => replGo p ps rep skip rest
  | 0, c :: rest =>
    if (p :: ps).isPrefixOf (c :: rest) then
      rep ++ replGo p ps rep ps.length rest
    else
      c :: replGo p ps rep 0 rest

/-- Python `s.replace(pat, rep)`.  The service only ever calls it with the
non-empty patterns `" "`, `"[edit]"` and `"[Edit]"`; for an empty pattern
(never used) we return the string unchanged. -/
def pyReplace (s pat rep : String) : String :=
  match pat.data with
  | [] => s
  | p :: ps => ⟨replGo p ps rep.data 0 s.data⟩

/-- `needle` occurs (contiguously) somewhere in the character list. -/
def infixAt (needle : List Char) : List Char → Bool
  | [] => needle.isEmpty
  | c :: rest => needle.isPrefixOf (c :: rest) || infixAt needle rest

/-- Python `needle in hay` for strings. -/
def pyIn (needle hay : String) : Bool :=
  infixAt needle.data hay.data

/-! ## Parsed HTML documents

`BeautifulSoup(response.text, 'html.parser')` yields a tree of tags and
text.  We model a node as either a text node or an element with a tag
name, an optional `id` attribute and a list of children; the attributes
other than `id` are never consulted by the code and are omitted. -/

inductive Node where
  | text (s : String)
  | elem (tag : String) (idAttr : Option String) (children : List Node)

/-- Python truthiness of a BeautifulSoup object, as used by
`if not content_div:`.  A `Tag` defines `__len__` as the number of its
children, so an element is falsy exactly when it has no children; a
`NavigableString` is falsy exactly when it is empty. -/
def nodeTruthy : Node → Bool
  | .text s => !s.isEmpty
  | .elem _ _ cs => !cs.isEmpty

mutual
/-- `soup.find(id=target)`: first element in document (preorder) order
whose `id` attribute equals `target`, searching the whole tree. -/
def findById : Node → String → Option Node
  | .text _, _ => none
  | .elem t i cs, target =>
    if i = some target then some (.elem t i cs) else findByIdList cs target
def findByIdList : List Node → String → Option Node
  | [], _ => none
  | n :: ns, target =>
    match findById n target with
    | some r => some r
    | none => findByIdList ns target
end

/-- The tag names `content_div.find_all(['h1','h2','h3','h4','h5','h6'])`
matches. -/
def headingTags : List String := ["h1", "h2", "h3", "h4", "h5", "h6"]

mutual
/-- `tag.find_all([...])`: the matching descendants of a node, in document
order (a match is listed before the matches inside it); the node itself is
not a candidate. -/
def findAllDesc : Node → List Node
  | .text _ => []
  | .elem _ _ cs => findAllDescList cs
def findAllDescList : List Node → List Node
  | [] => []
  | n :: ns => findAllSelf n ++ findAllDescList ns
def findAllSelf : Node → List Node
  | .text _ => []
  | .elem t i cs =>
    (if t ∈ headingTags then [Node.elem t i cs] else []) ++ findAllDescList cs
end

mutual
/-- `tag.get_text(strip=True)` with the default empty separator: each
descendant text node is stripped of surrounding whitespace and the results
are concatenated in document order. -/
def getTextStrip : Node → String
  | .text s => pyStrip s
  | .elem _ _ cs => getTextStripList cs
def getTextStripList : List Node → String
  | [] => ""
  | n :: ns => getTextStrip n ++ getTextStripList ns
end

/-! ## The endpoint `get_country_outline` -/

/-- `country.replace(" ", "_")` prefixed by the fixed base, as in
`wikipedia_url = f"https://en.wikipedia.org/wiki/{formatted_country}"`. -/
def wikipediaUrl (country : String) : String :=
  "https://en.wikipedia.org/wiki/" ++ pyReplace country " " "_"

/-- `int(heading.name[1])` — the digit after the `h` of the tag name. -/
def headingLevel : Node → Nat
  | .text _ => 0
  | .elem t _ _ =>
    match t.data with
    | _ :: c :: _ => c.toNat - '0'.toNat
    | _ => 0

/-- The cleaned text of a heading:
`heading.get_text(strip=True).replace('[edit]', '').replace('[Edit]', '')`. -/
def cleanedText (h : Node) : String :=
  pyReplace (pyReplace (getTextStrip h) "[edit]" "") "[Edit]" ""

/-- The Markdown line of one heading: `f"{'#' * level} {text}"`. -/
def markdownLine (level : Nat) (text : String) : String :=
  ⟨List.replicate level '#'⟩ ++ " " ++ text

/-- The body of the `for heading in headings:` loop, applied to one
heading: `None` when the heading is skipped (`if "Contents" in text:
continue`), otherwise the produced Markdown line. -/
def lineOfHeading (h : Node) : Option String :=
  let text := cleanedText h
  if pyIn "Contents" text then none
  else some (markdownLine (headingLevel h) text)

/-- The loop itself, threading the `markdown_outline` accumulator through
`markdown_outline.append(...)`. -/
def buildOutline : List Node → List String → List String
  | [], acc => acc
  | h :: hs, acc =>
    match lineOfHeading h with
    | none => buildOutline hs acc
    | some line => buildOutline hs (acc ++ [line])

/-- The lines accumulated for a content region: `find_all` over the
region, then the loop starting from the empty accumulator. -/
def outlineLines (contentDiv : Node) : List String :=
  buildOutline (findAllDesc contentDiv) []

/-- The detail string of the HTTPException raised when the content area is
missing. -/
def missingContentMsg : String :=
  "Could not find the main content area of the Wikipedia page."

/-- The extraction part of the handler, from the parsed document to either
the final outline (`"\n".join(markdown_outline)`) or the
`HTTPException(status_code=500, ...)` raised when `soup.find(id=
"mw-content-text")` yields nothing truthy.  The error carries the status
code and detail of that exception. -/
def extractOutline (doc : Node) : Except (Nat × String) String :=
  match findById doc "mw-content-text" with
  | none => .error (500, missingContentMsg)
  | some cd =>
    if nodeTruthy cd then .ok (String.intercalate "\n" (outlineLines cd))
    else .error (500, missingContentMsg)

/-- Outcome of `client.get(url)` + `response.raise_for_status()`:
a parsed 2xx body, an `httpx.HTTPStatusError` for a non-2xx status
(carrying the status and its string rendering), or any other transport
failure such as a timeout or connection error (an `httpx` exception,
caught only by the generic `except Exception` clause). -/
inductive FetchResult where
  | success (doc : Node)
  | statusError (code : Nat) (msg : String)
  | transportError (msg : String)

/-- The HTTP response the handler produces: a 200 plain-text body, or an
HTTPException with status code and detail. -/
inductive HandlerResult where
  | ok (body : String)
  | err (status : Nat) (detail : String)

/-- Starlette's `str(HTTPException)`: `f"{status_code}: {detail}"`.  This
is what `f"An unexpected error occurred: {e}"` interpolates when the
wrapped exception is itself an HTTPException. -/
def strOfHTTPException (status : Nat) (detail : String) : String :=
  toString status ++ ": " ++ detail

/-- The whole handler `get_country_outline`, given the outcome of the
fetch.  Mirrors the `try/except` structure of the source: the
HTTPException raised for a missing content area inside the `try` block is
caught by `except Exception as e` and re-raised wrapped; `except
httpx.HTTPStatusError` distinguishes 404 from other statuses; every other
exception (timeouts, connection failures) reaches the generic clause. -/
def getCountryOutline (country : String) (fetch : FetchResult) : HandlerResult :=
  match fetch with
  | .statusError code msg =>
    if code = 404 then
      .err 404 ("Wikipedia page for '" ++ country ++ "' not found.")
    else
      .err 500 ("Failed to fetch data from Wikipedia: " ++ msg)
  | .transportError msg =>
    .err 500 ("An unexpected error occurred: " ++ msg)
  | .success doc =>
    match extractOutline doc with
    | .ok body => .ok body
    | .error (status, detail) =>
      .err 500 ("An unexpected error occurred: " ++ strOfHTTPException status detail)

/-! ## Concrete documents used by the claims -/

/-- An `h1` carrying the page title, with the stable id `firstHeading`.
On Wikipedia pages it lives outside the content region. -/
def firstHeadingVanuatu : Node :=
  .elem "h1" (some "firstHeading") [.text "Vanuatu"]

/-- The content region of the spec's worked example, holding
`h2 "Etymology"`, `h2 "History"`, `h3 "Prehistory"` in order. -/
def vanuatuContent : Node :=
  .elem "div" (some "mw-content-text")
    [.elem "h2" none [.text "Etymology"],
     .elem "h2" none [.text "History"],
     .elem "h3" none [.text "Prehistory"]]

/-- The minimal document of the spec's worked example: `firstHeading` =
"Vanuatu" outside the content region, followed by the content region. -/
def vanuatuDoc : Node :=
  .elem "html" none [firstHeadingVanuatu, vanuatuContent]

/-! ## General lemmas about the embedded primitives -/

theorem isPrefixOf_append_self (l r : List Char) : l.isPrefixOf (l ++ r) = true := by
  induction l with
  | nil => simp
  | cons c cs ih => simp [List.isPrefixOf, ih]

theorem infixAt_nil_left (l : List Char) : infixAt [] l = true := by
  cases l <;> simp [infixAt]

/-- A needle occurs in any list that sandwiches it. -/
theorem infixAt_sandwich (l a b : List Char) : infixAt l (a ++ (l ++ b)) = true := by
  induction a with
  | nil =>
    cases l with
    | nil => simpa using infixAt_nil_left b
    | cons x xs => simp [infixAt, isPrefixOf_append_self]
  | cons c a' ih => simp [infixAt, ih]

/-- When a single-character needle is absent, no element equals it. -/
theorem infixAt_single_eq_false {x : Char} {l : List Char}
    (h : infixAt [x] l = false) : ∀ c ∈ l, c ≠ x := by
  induction l with
  | nil => intro c hc; cases hc
  | cons c rest ih =>
    intro d hd
    simp [infixAt, List.isPrefixOf] at h
    rcases List.mem_cons.mp hd with hd | hd
    · subst hd; exact fun he => h.1 he.symm
    · exact ih (by simp [infixAt, h.2]) d hd

theorem replGo_nil (p : Char) (ps rep : List Char) (n : Nat) :
    replGo p ps rep n [] = [] := by
  cases n <;> rfl

/-- The skip counter consumes exactly the characters of a matched pattern. -/
theorem replGo_skip (p : Char) (ps rep : List Char) (l rest : List Char) :
    replGo p ps rep l.length (l ++ rest) = replGo p ps rep 0 rest := by
  induction l with
  | nil => rfl
  | cons c l' ih => simpa [replGo] using ih

/-- Scanning over characters that cannot start the pattern copies them. -/
theorem replGo_copy (p : Char) (ps rep : List Char) {l : List Char}
    (hl : ∀ c ∈ l, c ≠ p) (rest : List Char) :
    replGo p ps rep 0 (l ++ rest) = l ++ replGo p ps rep 0 rest := by
  induction l with
  | nil => rfl
  | cons c l' ih =>
    have hc : (p == c) = false :=
      beq_eq_false_iff_ne.mpr (Ne.symm (hl c (by simp)))
    have hrec := ih (fun d hd => hl d (by simp [hd]))
    rw [List.cons_append, replGo.eq_3]
    simp [List.isPrefixOf, hc, hrec]

/-- A list free of the pattern's first character is left unchanged. -/
theorem replGo_id (p : Char) (ps rep : List Char) {l : List Char}
    (hl : ∀ c ∈ l, c ≠ p) : replGo p ps rep 0 l = l := by
  have h := replGo_copy p ps rep hl []
  rw [replGo_nil, List.append_nil] at h
  exact h

/-- A pattern occurrence at the scan position is replaced and skipped. -/
theorem replGo_match (p : Char) (ps rep rest : List Char) :
    replGo p ps rep 0 (p :: (ps ++ rest)) = rep ++ replGo p ps rep 0 rest := by
  have hpre : (p :: ps).isPrefixOf (p :: (ps ++ rest)) = true := by
    simp [List.isPrefixOf, isPrefixOf_append_self]
  have hskip := replGo_skip p ps rep ps rest
  rw [replGo.eq_3]
  simp [hpre, hskip]

/-- The accumulator loop is the `filterMap` of the per-heading line. -/
theorem buildOutline_eq (hs : List Node) (acc : List String) :
    buildOutline hs acc = acc ++ hs.filterMap lineOfHeading := by
  induction hs generalizing acc with
  | nil => simp [buildOutline]
  | cons h hs' ih =>
    cases hline : lineOfHeading h with
    | none => simp [buildOutline, hline, ih]
    | some line => simp [buildOutline, hline, ih]

theorem outlineLines_eq (cd : Node) :
    outlineLines cd = (findAllDesc cd).filterMap lineOfHeading := by
  simpa using buildOutline_eq (findAllDesc cd) []

/-- Document-order scanning distributes over sibling concatenation. -/
theorem findAllDescList_append (xs ys : List Node) :
    findAllDescList (xs ++ ys) = findAllDescList xs ++ findAllDescList ys := by
  induction xs with
  | nil => simp [findAllDescList]
  | cons n ns ih => simp [findAllDescList, ih]

/-- Replacing a single-character pattern by a single character is a
character map. -/
theorem replGo_single (x y : Char) (l : List Char) :
    replGo x [] [y] 0 l = l.map (fun c => if c = x then y else c) := by
  induction l with
  | nil => rfl
  | cons c rest ih =>
    rw [replGo.eq_3]
    by_cases hcx : c = x
    · subst hcx; simp [List.isPrefixOf, ih]
    · have hb : (x == c) = false := beq_eq_false_iff_ne.mpr (Ne.symm hcx)
      simp [List.isPrefixOf, hb, hcx, ih]

mutual
/-- Everything `find_all` collects at a node is an element whose tag is a
heading tag. -/
theorem tag_of_mem_findAllSelf (n m : Node) (hm : m ∈ findAllSelf n) :
    ∃ t i cs, m = .elem t i cs ∧ t ∈ headingTags := by
  cases n with
  | text s => simp [findAllSelf] at hm
  | elem t i cs =>
    rw [findAllSelf] at hm
    rcases List.mem_append.mp hm with h1 | h2
    · by_cases ht : t ∈ headingTags
      · rw [if_pos ht] at h1
        exact ⟨t, i, cs, by simpa using h1, ht⟩
      · rw [if_neg ht] at h1
        simp at h1
    · exact tag_of_mem_findAllDescList cs m h2

/-- Everything `find_all` collects below a list of siblings is an element
whose tag is a heading tag. -/
theorem tag_of_mem_findAllDescList (ns : List Node) (m : Node)
    (hm : m ∈ findAllDescList ns) :
    ∃ t i cs, m = .elem t i cs ∧ t ∈ headingTags := by
  cases ns with
  | nil => simp [findAllDescList] at hm
  | cons n ns' =>
    rw [findAllDescList] at hm
    rcases List.mem_append.mp hm with h1 | h2
    · exact tag_of_mem_findAllSelf n m h1
    · exact tag_of_mem_findAllDescList ns' m h2
end

/-- The character data of a rendered Markdown line. -/
theorem markdownLine_data (lv : Nat) (t : String) :
    (markdownLine lv t).data = List.replicate lv '#' ++ ' ' :: t.data := by
  simp [markdownLine]

/-- No rendered line of any content region is the string `## Contents`:
every line comes from a scanned heading (levels 1 through 6) whose cleaned
text does not contain `Contents`, and a line `## Contents` could only come
from a level-2 heading with cleaned text exactly `Contents`. -/
theorem no_contents_line (cd : Node) : "## Contents" ∉ outlineLines cd := by
  rw [outlineLines_eq]
  intro hmem
  rcases List.mem_filterMap.mp hmem with ⟨m, hm, hline⟩
  have htag : ∃ t i cs, m = .elem t i cs ∧ t ∈ headingTags := by
    cases cd with
    | text s => simp [findAllDesc] at hm
    | elem t i cs =>
      exact tag_of_mem_findAllDescList cs m (by simpa [findAllDesc] using hm)
  rcases htag with ⟨t, i, cs, rfl, ht⟩
  by_cases hpy : pyIn "Contents" (cleanedText (Node.elem t i cs)) = true
  · simp [lineOfHeading, hpy] at hline
  · have hfalse : pyIn "Contents" (cleanedText (Node.elem t i cs)) = false :=
      Bool.eq_false_iff.mpr hpy
    simp [lineOfHeading, hfalse] at hline
    have hdata := congrArg String.data hline
    rw [markdownLine_data] at hdata
    have hC : "## Contents".data = ['#','#',' ','C','o','n','t','e','n','t','s'] := rfl
    rw [hC] at hdata
    simp [headingTags] at ht
    rcases ht with rfl | rfl | rfl | rfl | rfl | rfl
    · have hlv : headingLevel (Node.elem "h1" i cs) = 1 := rfl
      rw [hlv] at hdata; simp [List.replicate] at hdata
    · have hlv : headingLevel (Node.elem "h2" i cs) = 2 := rfl
      rw [hlv] at hdata; simp [List.replicate] at hdata
      have htxt : cleanedText (Node.elem "h2" i cs) = "Contents" :=
        String.ext (by simpa using hdata)
      rw [htxt] at hfalse
      exact absurd hfalse (by decide)
    · have hlv : headingLevel (Node.elem "h3" i cs) = 3 := rfl
      rw [hlv] at hdata; simp [List.replicate] at hdata
    · have hlv : headingLevel (Node.elem "h4" i cs) = 4 := rfl
      rw [hlv] at hdata; simp [List.replicate] at hdata
    · have hlv : headingLevel (Node.elem "h5" i cs) = 5 := rfl
      rw [hlv] at hdata; simp [List.replicate] at hdata
    · have hlv : headingLevel (Node.elem "h6" i cs) = 6 := rfl
      rw [hlv] at hdata; simp [List.replicate] at hdata

/-! ## Further concrete documents used by the claims -/

/-- A well-formed page whose content region is absent. -/
def docNoContent : Node :=
  .elem "html" none [.elem "div" (some "bodyContent") [.text "hello"]]

/-- A page whose only body heading carries the text `[[Edit]edit]`: the
removal of `[Edit]` glues a fresh `[edit]` together. -/
def docEditArtifact : Node :=
  .elem "html" none
    [.elem "div" (some "mw-content-text")
      [.elem "h2" none [.text "[[Edit]edit]"]]]

/-! ## Claims -/

/-- C2 (counterexample): on the spec's minimal Vanuatu document the code
renders exactly the three body-heading lines — there is no synthetic
`## Contents` line and no `# Vanuatu` title line, so the output differs
from the five lines the claim demands. -/
theorem C2_vanuatu_counterexample :
    extractOutline vanuatuDoc = .ok "## Etymology\n## History\n### Prehistory" ∧
    "## Etymology\n## History\n### Prehistory" ≠
      "## Contents\n# Vanuatu\n## Etymology\n## History\n### Prehistory" :=
  ⟨rfl, by decide⟩

/-- C2 (amended): on the minimal Vanuatu document — `firstHeading` =
"Vanuatu" outside the content region, body headings h2 "Etymology",
h2 "History", h3 "Prehistory" — the rendered output is exactly the three
lines `## Etymology`, `## History`, `### Prehistory` joined by single
newlines, with no synthetic Contents line and no title line. -/
theorem C2_vanuatu_output :
    extractOutline vanuatuDoc = .ok "## Etymology\n## History\n### Prehistory" := rfl

/-- C3: for every document with no `mw-content-text` element, extraction
fails with the internal 500 error carrying the missing-content-area
message, and the request yields an HTTP 500 response and never an
outline. -/
theorem C3_missing_content_region (country : String) (doc : Node)
    (h : findById doc "mw-content-text" = none) :
    extractOutline doc = .error (500, missingContentMsg) ∧
    (∀ body, getCountryOutline country (.success doc) ≠ .ok body) ∧
    (∃ detail, getCountryOutline country (.success doc) = .err 500 detail) := by
  have hex : extractOutline doc = .error (500, missingContentMsg) := by
    simp [extractOutline, h]
  refine ⟨hex, ?_, ?_⟩
  · intro body hbody
    simp [getCountryOutline, hex] at hbody
  · refine ⟨"An unexpected error occurred: " ++ strOfHTTPException 500 missingContentMsg, ?_⟩
    simp [getCountryOutline, hex]

/-- C3 (witness): the concrete document `docNoContent` lacks the content
region and is mapped to the 500 error. -/
theorem C3_missing_content_region_witness :
    findById docNoContent "mw-content-text" = none ∧
    (extractOutline docNoContent = .error (500, missingContentMsg) ∧
     (∀ body, getCountryOutline "Atlantis" (.success docNoContent) ≠ .ok body) ∧
     (∃ detail, getCountryOutline "Atlantis" (.success docNoContent) = .err 500 detail)) :=
  ⟨rfl, C3_missing_content_region "Atlantis" docNoContent rfl⟩

/-- C6 (counterexample): the heading text `[[Edit]edit]` defeats the
single-pass replacement — removing `[Edit]` glues a new `[edit]` together,
which is never removed, so the literal substring `[edit]` appears in the
rendered output. -/
theorem C6_edit_counterexample :
    cleanedText (.elem "h2" none [.text "[[Edit]edit]"]) = "[edit]" ∧
    extractOutline docEditArtifact = .ok "## [edit]" ∧
    pyIn "[edit]" "## [edit]" = true :=
  ⟨rfl, rfl, by decide⟩

/-- C7: the URL resolver is the pure total transform that replaces every
space character by an underscore and prepends the fixed prefix, with no
other character transformation; `United States` resolves to
`https://en.wikipedia.org/wiki/United_States`. -/
theorem C7_url_resolver (country : String) :
    wikipediaUrl country =
      ⟨"https://en.wikipedia.org/wiki/".data ++
        country.data.map (fun c => if c = ' ' then '_' else c)⟩ ∧
    wikipediaUrl "United States" = "https://en.wikipedia.org/wiki/United_States" := by
  constructor
  · apply String.ext
    rw [wikipediaUrl, String.data_append]
    have hrepl : pyReplace country " " "_" = ⟨replGo ' ' [] ['_'] 0 country.data⟩ := rfl
    rw [hrepl]
    show _ ++ replGo ' ' [] ['_'] 0 country.data = _
    rw [replGo_single]
  · rfl

/-- C8: a remote 404 status yields an HTTP 404 response whose detail
message contains the requested country name as given. -/
theorem C8_remote_404 (country msg : String) :
    getCountryOutline country (.statusError 404 msg) =
      .err 404 ("Wikipedia page for '" ++ country ++ "' not found.") ∧
    pyIn country ("Wikipedia page for '" ++ country ++ "' not found.") = true := by
  refine ⟨rfl, ?_⟩
  show infixAt country.data
    (("Wikipedia page for '" ++ country) ++ "' not found.").data = true
  rw [String.data_append, String.data_append, List.append_assoc]
  exact infixAt_sandwich country.data _ _

/-- C9: every non-404 fetch failure — a non-2xx status or a transport
failure such as a timeout or connection error — is translated into an HTTP
500 response carrying a descriptive cause; no outline is returned. -/
theorem C9_fetch_failure (country msg : String) (code : Nat) (hcode : code ≠ 404) :
    getCountryOutline country (.statusError code msg) =
      .err 500 ("Failed to fetch data from Wikipedia: " ++ msg) ∧
    getCountryOutline country (.transportError msg) =
      .err 500 ("An unexpected error occurred: " ++ msg) := by
  refine ⟨?_, rfl⟩
  simp [getCountryOutline, hcode]

/-- C9 (witness): a concrete 500 remote status and a concrete timeout are
both mapped to HTTP 500 responses. -/
theorem C9_fetch_failure_witness :
    (500 : Nat) ≠ 404 ∧
    (getCountryOutline "France" (.statusError 500 "Server Error") =
       .err 500 ("Failed to fetch data from Wikipedia: " ++ "Server Error") ∧
     getCountryOutline "France" (.transportError "Server Error") =
       .err 500 ("An unexpected error occurred: " ++ "Server Error")) :=
  ⟨by decide, C9_fetch_failure "France" "Server Error" 500 (by decide)⟩

/-- C10: the internal 500 raised for a missing content region inside the
`try` block is re-caught by the generic except clause and re-raised
wrapped, so the final detail begins with `An unexpected error occurred`
and embeds the original missing-content-area message; the status stays
500. -/
theorem C10_wrapped_error (country : String) (doc : Node)
    (h : findById doc "mw-content-text" = none) :
    getCountryOutline country (.success doc) =
      .err 500 ("An unexpected error occurred: " ++
        strOfHTTPException 500 missingContentMsg) ∧
    List.isPrefixOf "An unexpected error occurred".data
      ("An unexpected error occurred: " ++
        strOfHTTPException 500 missingContentMsg).data = true ∧
    pyIn missingContentMsg
      ("An unexpected error occurred: " ++
        strOfHTTPException 500 missingContentMsg) = true := by
  refine ⟨?_, by decide, by decide⟩
  simp [getCountryOutline, extractOutline, h]

/-- C10 (witness): the wrapped 500 on the concrete document without a
content region. -/
theorem C10_wrapped_error_witness :
    findById docNoContent "mw-content-text" = none ∧
    (getCountryOutline "Utopia" (.success docNoContent) =
       .err 500 ("An unexpected error occurred: " ++
         strOfHTTPException 500 missingContentMsg) ∧
     List.isPrefixOf "An unexpected error occurred".data
       ("An unexpected error occurred: " ++
         strOfHTTPException 500 missingContentMsg).data = true ∧
     pyIn missingContentMsg
       ("An unexpected error occurred: " ++
         strOfHTTPException 500 missingContentMsg) = true) :=
  ⟨rfl, C10_wrapped_error "Utopia" docNoContent rfl⟩

/-- A content region whose first body heading is an `h1`. -/
def bodyH1Content : Node :=
  .elem "div" (some "mw-content-text")
    [.elem "h1" none [.text "Vanuatu"],
     .elem "h2" none [.text "Etymology"]]

/-- A page whose content region starts with a body-level `h1`. -/
def docBodyH1 : Node :=
  .elem "html" none [bodyH1Content]

/-- A body heading whose text contains `Contents`. -/
def contentsHeading : Node :=
  .elem "h3" none [.text "Article Contents"]

/-- A content region holding the in-body contents marker and one real
heading. -/
def contentsMarkerDiv : Node :=
  .elem "div" (some "mw-content-text")
    [contentsHeading, .elem "h2" none [.text "History"]]

/-- C1 (counterexample): the Vanuatu document has the content region and a
title element, yet the rendered outline does not begin with a synthetic
`## Contents` heading — no such entry is ever produced. -/
theorem C1_counterexample :
    (findById vanuatuDoc "mw-content-text").isSome = true ∧
    extractOutline vanuatuDoc = .ok "## Etymology\n## History\n### Prehistory" ∧
    List.isPrefixOf "## Contents".data
      "## Etymology\n## History\n### Prehistory".data = false :=
  ⟨rfl, rfl, by decide⟩

/-- C1 (amended): whenever the content region is found (and truthy in
Python's sense), the rendered outline is exactly the cleaned body headings
of the content region in document order — there is no synthetic Contents
entry and no separately-located title entry, and the order is the document
order, never alphabetical or level-sorted. -/
theorem C1_document_order (doc cd : Node)
    (hfind : findById doc "mw-content-text" = some cd)
    (htruthy : nodeTruthy cd = true) :
    extractOutline doc =
      .ok (String.intercalate "\n" ((findAllDesc cd).filterMap lineOfHeading)) := by
  simp [extractOutline, hfind, htruthy, outlineLines_eq]

/-- C1 (witness): the document-order rendering on the concrete Vanuatu
document. -/
theorem C1_document_order_witness :
    findById vanuatuDoc "mw-content-text" = some vanuatuContent ∧
    nodeTruthy vanuatuContent = true ∧
    extractOutline vanuatuDoc =
      .ok (String.intercalate "\n"
        ((findAllDesc vanuatuContent).filterMap lineOfHeading)) :=
  ⟨rfl, rfl, C1_document_order vanuatuDoc vanuatuContent rfl rfl⟩

/-- C4 (counterexample): a level-1 heading directly inside the content
region IS emitted as a body entry — the scan covers `h1` through `h6`. -/
theorem C4_counterexample :
    extractOutline docBodyH1 = .ok "# Vanuatu\n## Etymology" ∧
    "# Vanuatu" ∈ outlineLines bodyH1Content :=
  ⟨rfl, by decide⟩

/-- C4 (amended): the body scan collects heading elements of all levels 1
through 6; an `h1` sitting anywhere among the content region's children is
emitted as a body entry with a single `#` marker whenever its cleaned text
does not contain `Contents`. -/
theorem C4_h1_collected (tag : String) (idc i : Option String)
    (hcs cs1 cs2 : List Node)
    (hc : pyIn "Contents" (cleanedText (.elem "h1" i hcs)) = false) :
    ("# " ++ cleanedText (.elem "h1" i hcs)) ∈
      outlineLines (.elem tag idc (cs1 ++ .elem "h1" i hcs :: cs2)) := by
  rw [outlineLines_eq]
  have hmem : (Node.elem "h1" i hcs) ∈
      findAllDesc (.elem tag idc (cs1 ++ .elem "h1" i hcs :: cs2)) := by
    show _ ∈ findAllDescList (cs1 ++ .elem "h1" i hcs :: cs2)
    rw [findAllDescList_append]
    have hself : findAllSelf (Node.elem "h1" i hcs) =
        Node.elem "h1" i hcs :: findAllDescList hcs := by
      simp [findAllSelf, headingTags]
    simp [findAllDescList, hself]
  have hlv : headingLevel (Node.elem "h1" i hcs) = 1 := rfl
  have hline : lineOfHeading (Node.elem "h1" i hcs) =
      some ("# " ++ cleanedText (.elem "h1" i hcs)) := by
    simp [lineOfHeading, hc, hlv, markdownLine]
  exact List.mem_filterMap.mpr ⟨_, hmem, hline⟩

/-- C4 (witness): the concrete body `h1` of `bodyH1Content` is emitted. -/
theorem C4_h1_collected_witness :
    pyIn "Contents" (cleanedText (.elem "h1" none [Node.text "Vanuatu"])) = false ∧
    ("# " ++ cleanedText (.elem "h1" none [Node.text "Vanuatu"])) ∈
      outlineLines (.elem "div" (some "mw-content-text")
        ([] ++ .elem "h1" none [Node.text "Vanuatu"] ::
          [Node.elem "h2" none [Node.text "Etymology"]])) :=
  ⟨by decide,
   C4_h1_collected "div" (some "mw-content-text") none
     [Node.text "Vanuatu"] [] [Node.elem "h2" none [Node.text "Etymology"]]
     (by decide)⟩

/-- C5: a body heading of any level whose cleaned text contains
`Contents` is discarded and contributes no line, and no rendered outline
ever contains a `## Contents` line (there is no synthetic entry it could
duplicate). -/
theorem C5_contents_dropped (cd hNode : Node)
    (hc : pyIn "Contents" (cleanedText hNode) = true) :
    lineOfHeading hNode = none ∧ "## Contents" ∉ outlineLines cd :=
  ⟨by simp [lineOfHeading, hc], no_contents_line cd⟩

/-- C5 (witness): the concrete in-body contents marker is dropped and the
concrete content region renders no `## Contents` line. -/
theorem C5_contents_dropped_witness :
    pyIn "Contents" (cleanedText contentsHeading) = true ∧
    (lineOfHeading contentsHeading = none ∧
     "## Contents" ∉ outlineLines contentsMarkerDiv) :=
  ⟨by decide, C5_contents_dropped contentsMarkerDiv contentsHeading (by decide)⟩

/-- C6 (amended): the cleaning removes, in one left-to-right
non-overlapping pass each, the occurrences of `[edit]` and then of
`[Edit]` that are present in its input; when the surrounding text contains
no other `[` character an occurrence is removed cleanly and text without
the markers is left unchanged — but an occurrence glued together by a
removal itself is not removed (see the counterexample). -/
theorem C6_edit_removal (a b : String)
    (ha : pyIn "[" a = false) (hb : pyIn "[" b = false) :
    pyReplace (a ++ "[edit]" ++ b) "[edit]" "" = a ++ b ∧
    pyReplace (a ++ "[Edit]" ++ b) "[Edit]" "" = a ++ b ∧
    pyReplace (a ++ b) "[edit]" "" = a ++ b ∧
    pyReplace (a ++ b) "[Edit]" "" = a ++ b := by
  have ha' : ∀ c ∈ a.data, c ≠ '[' := infixAt_single_eq_false ha
  have hb' : ∀ c ∈ b.data, c ≠ '[' := infixAt_single_eq_false hb
  have hab : ∀ c ∈ a.data ++ b.data, c ≠ '[' := by
    intro c hcmem
    rcases List.mem_append.mp hcmem with hmem | hmem
    · exact ha' c hmem
    · exact hb' c hmem
  refine ⟨?_, ?_, ?_, ?_⟩
  · apply String.ext
    show replGo '[' "edit]".data [] 0 ((a ++ "[edit]") ++ b).data = (a ++ b).data
    rw [String.data_append, String.data_append, List.append_assoc]
    rw [replGo_copy '[' "edit]".data [] ha']
    show a.data ++ replGo '[' "edit]".data [] 0 ('[' :: ("edit]".data ++ b.data)) = _
    rw [replGo_match, replGo_id '[' "edit]".data [] hb']
    simp
  · apply String.ext
    show replGo '[' "Edit]".data [] 0 ((a ++ "[Edit]") ++ b).data = (a ++ b).data
    rw [String.data_append, String.data_append, List.append_assoc]
    rw [replGo_copy '[' "Edit]".data [] ha']
    show a.data ++ replGo '[' "Edit]".data [] 0 ('[' :: ("Edit]".data ++ b.data)) = _
    rw [replGo_match, replGo_id '[' "Edit]".data [] hb']
    simp
  · apply String.ext
    show replGo '[' "edit]".data [] 0 (a ++ b).data = (a ++ b).data
    rw [String.data_append]
    exact replGo_id '[' "edit]".data [] hab
  · apply String.ext
    show replGo '[' "Edit]".data [] 0 (a ++ b).data = (a ++ b).data
    rw [String.data_append]
    exact replGo_id '[' "Edit]".data [] hab

/-- C6 (witness): a clean removal on concrete surrounding text. -/
theorem C6_edit_removal_witness :
    pyIn "[" "History" = false ∧ pyIn "[" " 1900" = false ∧
    (pyReplace ("History" ++ "[edit]" ++ " 1900") "[edit]" "" = "History" ++ " 1900" ∧
     pyReplace ("History" ++ "[Edit]" ++ " 1900") "[Edit]" "" = "History" ++ " 1900" ∧
     pyReplace ("History" ++ " 1900") "[edit]" "" = "History" ++ " 1900" ∧
     pyReplace ("History" ++ " 1900") "[Edit]" "" = "History" ++ " 1900") :=
  ⟨by decide, by decide, C6_edit_removal "History" " 1900" (by decide) (by decide)⟩

end GlobalEduApi
